import Mathlib

/-!
Verification of the session ledger and command dispatch of the Binary
Options Risk Management TUI (`src/core/main.py`).

The ledger (`Session`), its operations (`add_trade`, `undo_last_trade`,
`_recalculate_streaks`, `should_stop`, `stats`, `current_risk_amount`)
and the command handler (`BinOptTUI.handle_command`) are shallowly
embedded below.  Python floats are modelled as rationals (ℚ); wall-clock
timestamps (`datetime.now()`) are omitted from the `Trade` record since
no ledger operation reads them.  The curses rendering layer is out of
scope.
-/

/-- `class TradeResult(Enum)`: WIN / LOSS / PUSH. -/
inductive TradeResult
  | WIN
  | LOSS
  | PUSH
deriving DecidableEq, Repr

/-- `@dataclass Trade` (the `timestamp` string, produced from the wall
clock and never read by any ledger operation, is omitted). -/
structure Trade where
  trade_type : String
  risk_amount : ℚ
  result : TradeResult
  payout : ℚ
  balance_after : ℚ
deriving DecidableEq, Repr

/-- `Trade.profit_loss`: WIN → `payout`, LOSS → `-risk_amount`, PUSH → `0.0`. -/
def Trade.profit_loss (t : Trade) : ℚ :=
  match t.result with
  | .WIN => t.payout
  | .LOSS => -t.risk_amount
  | .PUSH => 0

/-- The configuration dict consumed by `Session.__init__`: required
`initial_balance`, `risk_percent`, `payout_percent`; `config.get` with
defaults for the other two keys is modelled with `Option`. -/
structure Config where
  initial_balance : ℚ
  risk_percent : ℚ
  payout_percent : ℚ
  stop_loss_percent : Option ℚ
  max_consecutive_losses : Option ℕ
deriving DecidableEq, Repr

/-- The mutable state of `class Session`. -/
structure Session where
  initial_balance : ℚ
  risk_percent : ℚ
  payout_percent : ℚ
  stop_loss_percent : ℚ
  max_consecutive_losses : ℕ
  current_balance : ℚ
  trades : List Trade
  consecutive_wins : ℕ
  consecutive_losses : ℕ
  max_balance : ℚ
  min_balance : ℚ
deriving DecidableEq, Repr

/-- `Session.__init__(config)`: `config.get('stop_loss_percent', 20)` and
`config.get('max_consecutive_losses', 5)` become `Option.getD`. -/
def Session.init (config : Config) : Session :=
  { initial_balance := config.initial_balance
    risk_percent := config.risk_percent
    payout_percent := config.payout_percent
    stop_loss_percent := config.stop_loss_percent.getD 20
    max_consecutive_losses := config.max_consecutive_losses.getD 5
    current_balance := config.initial_balance
    trades := []
    consecutive_wins := 0
    consecutive_losses := 0
    max_balance := config.initial_balance
    min_balance := config.initial_balance }

/-- `Session.current_risk_amount`: `current_balance * (risk_percent / 100.0)`. -/
def Session.current_risk_amount (s : Session) : ℚ :=
  s.current_balance * (s.risk_percent / 100)

/-- The risk resolution at the top of `Session.add_trade`:
`risk = custom_risk if custom_risk else self.current_risk_amount()`.
Python truthiness: `custom_risk` is falsy both when it is `None` and
when it equals `0.0`, so a zero override falls back to
`current_risk_amount()`. -/
def Session.resolve_risk (s : Session) (custom_risk : Option ℚ) : ℚ :=
  match custom_risk with
  | some r => if r ≠ 0 then r else s.current_risk_amount
  | none => s.current_risk_amount

/-- `Session.add_trade(result, trade_type, custom_risk)`: per-outcome
balance/payout/streak updates, then the `Trade` snapshot is appended and
the running max/min balances are updated.  Returns the new state and the
created trade. -/
def Session.add_trade (s : Session) (result : TradeResult) (trade_type : String)
    (custom_risk : Option ℚ) : Session × Trade :=
  let risk := s.resolve_risk custom_risk
  let payout : ℚ :=
    match result with
    | .WIN => risk * (s.payout_percent / 100)
    | .LOSS => 0
    | .PUSH => 0
  let new_balance : ℚ :=
    match result with
    | .WIN => s.current_balance + payout
    | .LOSS => s.current_balance - risk
    | .PUSH => s.current_balance
  let cw : ℕ :=
    match result with
    | .WIN => s.consecutive_wins + 1
    | .LOSS => 0
    | .PUSH => s.consecutive_wins
  let cl : ℕ :=
    match result with
    | .WIN => 0
    | .LOSS => s.consecutive_losses + 1
    | .PUSH => s.consecutive_losses
  let trade : Trade :=
    { trade_type := trade_type
      risk_amount := risk
      result := result
      payout := payout
      balance_after := new_balance }
  ({ s with
      current_balance := new_balance
      consecutive_wins := cw
      consecutive_losses := cl
      trades := s.trades ++ [trade]
      max_balance := max s.max_balance new_balance
      min_balance := min s.min_balance new_balance },
   trade)

/-- The loop body of `Session._recalculate_streaks`, scanning
`reversed(self.trades)` (most-recent-first) with the two mutable
counters as accumulators; `break` is modelled by returning the
accumulators. -/
def streakScanAux : List Trade → ℕ → ℕ → ℕ × ℕ
  | [], w, l => (w, l)
  | t :: rest, w, l =>
    match t.result with
    | .WIN => if l > 0 then (w, l) else streakScanAux rest (w + 1) l
    | .LOSS => if w > 0 then (w, l) else streakScanAux rest w (l + 1)
    | .PUSH => (w, l)

/-- `Session._recalculate_streaks`: reset both counters to 0, then scan
the history backward. -/
def Session.recalculate_streaks (s : Session) : Session :=
  let wl := streakScanAux s.trades.reverse 0 0
  { s with consecutive_wins := wl.1, consecutive_losses := wl.2 }

/-- `Session.undo_last_trade`: returns `False` on empty history;
otherwise pops the last trade, restores the balance from the new last
trade's `balance_after` (or `initial_balance`), recalculates streaks and
returns `True`. -/
def Session.undo_last_trade (s : Session) : Bool × Session :=
  if s.trades = [] then (false, s)
  else
    let remaining := s.trades.dropLast
    let new_balance : ℚ :=
      match remaining.getLast? with
      | some t => t.balance_after
      | none => s.initial_balance
    (true,
     Session.recalculate_streaks
       { s with trades := remaining, current_balance := new_balance })

/-- The second component of `Session.should_stop`'s return value: the
reason string, with the two f-string messages represented by
constructors carrying the interpolated values, and `""` by `empty`. -/
inductive StopMsg
  | stopLoss (drawdown_percent : ℚ)
  | maxConsecLosses (count : ℕ)
  | empty
deriving DecidableEq, Repr

/-- `Session.should_stop`: drawdown stop first, then consecutive-loss
stop, else `(False, "")`. -/
def Session.should_stop (s : Session) : Bool × StopMsg :=
  let drawdown_percent :=
    ((s.initial_balance - s.current_balance) / s.initial_balance) * 100
  if drawdown_percent ≥ s.stop_loss_percent then
    (true, .stopLoss drawdown_percent)
  else if s.consecutive_losses ≥ s.max_consecutive_losses then
    (true, .maxConsecLosses s.consecutive_losses)
  else
    (false, .empty)

/-- The dict returned by `Session.stats`. -/
structure Stats where
  total_trades : ℕ
  wins : ℕ
  losses : ℕ
  pushes : ℕ
  win_rate : ℚ
  total_pl : ℚ
  roi_percent : ℚ
  expectancy : ℚ
  avg_win : ℚ
  avg_loss : ℚ
  max_drawdown_percent : ℚ
  current_streak : ℤ
  breakeven_wr : ℚ
deriving DecidableEq, Repr

/-- `Session.stats`: the early return of the all-zero dict on empty
history (note `breakeven_wr` is `0.0` there), then the derived
statistics. -/
def Session.stats (s : Session) : Stats :=
  if s.trades = [] then
    { total_trades := 0, wins := 0, losses := 0, pushes := 0
      win_rate := 0, total_pl := 0, roi_percent := 0, expectancy := 0
      avg_win := 0, avg_loss := 0, max_drawdown_percent := 0
      current_streak := 0, breakeven_wr := 0 }
  else
    let wins := s.trades.filter (fun t => t.result = .WIN)
    let losses := s.trades.filter (fun t => t.result = .LOSS)
    let pushes := s.trades.filter (fun t => t.result = .PUSH)
    let total_trades := s.trades.length
    let win_count := wins.length
    let loss_count := losses.length
    let win_rate : ℚ :=
      if total_trades > 0 then (win_count : ℚ) / total_trades * 100 else 0
    let total_pl := s.current_balance - s.initial_balance
    let roi_percent := total_pl / s.initial_balance * 100
    let avg_win : ℚ :=
      if wins ≠ [] then (wins.map Trade.payout).sum / wins.length else 0
    let avg_loss : ℚ :=
      if losses ≠ [] then (losses.map Trade.risk_amount).sum / losses.length else 0
    let expectancy := win_rate / 100 * avg_win - (100 - win_rate) / 100 * avg_loss
    let max_dd := (s.initial_balance - s.min_balance) / s.initial_balance * 100
    let breakeven_wr : ℚ := 100 / (1 + s.payout_percent / 100)
    let current_streak : ℤ :=
      if s.consecutive_wins > 0 then (s.consecutive_wins : ℤ)
      else -(s.consecutive_losses : ℤ)
    { total_trades := total_trades, wins := win_count, losses := loss_count
      pushes := pushes.length, win_rate := win_rate, total_pl := total_pl
      roi_percent := roi_percent, expectancy := expectancy
      avg_win := avg_win, avg_loss := avg_loss
      max_drawdown_percent := max_dd, current_streak := current_streak
      breakeven_wr := breakeven_wr }

/-- A single call to `Session.add_trade` as dispatched by the run loop
or a test scenario: outcome, trade-type label, optional risk override. -/
structure RecordCall where
  result : TradeResult
  trade_type : String
  custom_risk : Option ℚ
deriving DecidableEq, Repr

/-- Folding a list of `add_trade` calls over a session (a sequence of
`record` operations, no undo). -/
def Session.runRecords (s : Session) : List RecordCall → Session
  | [] => s
  | c :: cs => Session.runRecords (s.add_trade c.result c.trade_type c.custom_risk).1 cs

/-- Replaying `record` from scratch over a trade history: each surviving
trade is re-recorded with its own outcome, type and risk amount. -/
def Session.replayHistory (s : Session) (ts : List Trade) : Session :=
  ts.foldl (fun acc t => (acc.add_trade t.result t.trade_type (some t.risk_amount)).1) s

/-- The streak-counter component of one `add_trade` call, as a function
of the outcome alone (read off the WIN/LOSS/PUSH branches of
`Session.add_trade`). -/
def streakStep (wl : ℕ × ℕ) (r : TradeResult) : ℕ × ℕ :=
  match r with
  | .WIN => (wl.1 + 1, 0)
  | .LOSS => (0, wl.2 + 1)
  | .PUSH => wl

/-- The config dict built inline by the TUI's `reset` command: only
balance/risk/payout are carried over, so `stop_loss_percent` and
`max_consecutive_losses` fall back to their defaults. -/
def Session.reset_config (s : Session) : Config :=
  { initial_balance := s.initial_balance
    risk_percent := s.risk_percent
    payout_percent := s.payout_percent
    stop_loss_percent := none
    max_consecutive_losses := none }

/-- Session states reachable from a fresh `Session.__init__` by any
sequence of `add_trade`, `undo_last_trade` and `reset` operations. -/
inductive Reachable : Session → Prop
  | init (cfg : Config) : Reachable (Session.init cfg)
  | record (s : Session) (r : TradeResult) (ty : String) (cr : Option ℚ) :
      Reachable s → Reachable (s.add_trade r ty cr).1
  | undo (s : Session) : Reachable s → Reachable (s.undo_last_trade).2
  | reset (s : Session) : Reachable s → Reachable (Session.init s.reset_config)

/-- The balance/history coherence invariant of a session: the running
balance agrees with the `balance_after` snapshot of the last trade (or
with `initial_balance` when the history is empty). -/
def BalancedHistory (s : Session) : Prop :=
  s.current_balance =
    match s.trades.getLast? with
    | some t => t.balance_after
    | none => s.initial_balance

instance (s : Session) : Decidable (BalancedHistory s) := by
  unfold BalancedHistory; infer_instance

/-- `cmd.strip().split()` of `BinOptTUI.handle_command`: Python's
whitespace split into maximal non-whitespace runs, dropping leading and
trailing whitespace.  Implemented over the character list so that it
evaluates by kernel reduction. -/
def splitTokensAux : List Char → List Char → List String
  | [], acc => if acc = [] then [] else [String.mk acc.reverse]
  | c :: cs, acc =>
    if c.isWhitespace then
      if acc = [] then splitTokensAux cs []
      else String.mk acc.reverse :: splitTokensAux cs []
    else splitTokensAux cs (c :: acc)

/-- Tokenisation used by the command handler. -/
def pySplit (cmd : String) : List String :=
  splitTokensAux cmd.toList []

/-- The TUI state touched by `BinOptTUI.handle_command`: the owned
session and the status-message field.  (The curses screen handle, the
scroll offset, the mode flag and the command buffer are never read or
written by `handle_command` and are managed by the excluded rendering /
run-loop code, so they are omitted here.) -/
structure BinOptTUI where
  session : Session
  status_message : String
deriving Repr

/-- `BinOptTUI.handle_command(cmd)`.  The return value is `some "QUIT"`
on the quit commands and `none` (Python `None`) otherwise.  Python's
builtin `float` parser and float-to-string formatting are external to
the program and passed in as `pyFloat` / `pyFloatRepr`; `pyFloat`
returns `none` exactly when `float(arg)` raises `ValueError`. -/
def BinOptTUI.handle_command (pyFloat : String → Option ℚ) (pyFloatRepr : ℚ → String)
    (tui : BinOptTUI) (cmd : String) : Option String × BinOptTUI :=
  match pySplit cmd with
  | [] => (none, tui)
  | command :: rest =>
    if command = "q" ∨ command = "quit" then (some "QUIT", tui)
    else if command = "w" then
      (none, { tui with status_message := "Session saved (not implemented yet)" })
    else if command = "wq" then (some "QUIT", tui)
    else if command = "reset" then
      (none, { session := Session.init tui.session.reset_config
               status_message := "Session reset" })
    else if command = "risk" ∧ rest.length > 0 then
      match pyFloat (rest.headD "") with
      | some v =>
        (none, { tui with
                   session := { tui.session with risk_percent := v }
                   status_message := "Risk set to " ++ pyFloatRepr v ++ "%" })
      | none => (none, { tui with status_message := "Invalid risk value" })
    else if command = "payout" ∧ rest.length > 0 then
      match pyFloat (rest.headD "") with
      | some v =>
        (none, { tui with
                   session := { tui.session with payout_percent := v }
                   status_message := "Payout set to " ++ pyFloatRepr v ++ "%" })
      | none => (none, { tui with status_message := "Invalid payout value" })
    else if command = "help" then
      (none, { tui with
                 status_message := "w=win l=loss p=push dd=undo :q=quit :risk N :payout N" })
    else
      (none, { tui with status_message := "Unknown command: " ++ command })

/-- The default configuration of `load_config` (also the worked scenario
of the specification): balance 2000, risk 5%, payout 80%. -/
def sampleConfig : Config :=
  { initial_balance := 2000
    risk_percent := 5
    payout_percent := 80
    stop_loss_percent := some 20
    max_consecutive_losses := some 5 }

/-- The drawdown expression computed at the top of `Session.should_stop`:
`((initial_balance - current_balance) / initial_balance) * 100`. -/
def Session.drawdown_percent (s : Session) : ℚ :=
  ((s.initial_balance - s.current_balance) / s.initial_balance) * 100

/-- The streak counters produced by replaying `add_trade` over a history
given most-recent-first (head = last trade replayed): the head's outcome
is applied last. -/
def replayStreaksRev : List Trade → ℕ × ℕ
  | [] => (0, 0)
  | t :: rest => streakStep (replayStreaksRev rest) t.result

/-- Length of the leading run of WIN trades of a most-recent-first list. -/
def leadWins (rs : List Trade) : ℕ :=
  (rs.takeWhile (fun t => t.result == TradeResult.WIN)).length

/-- Length of the leading run of LOSS trades of a most-recent-first list. -/
def leadLosses (rs : List Trade) : ℕ :=
  (rs.takeWhile (fun t => t.result == TradeResult.LOSS)).length

/-- A history with no PUSH trades. -/
def NoPush (ts : List Trade) : Prop :=
  ∀ t ∈ ts, t.result ≠ TradeResult.PUSH

instance (ts : List Trade) : Decidable (NoPush ts) := by
  unfold NoPush; infer_instance

/-- The TUI state right after construction: fresh session from the
default config, status line `"Session Active"`. -/
def sampleTUI : BinOptTUI :=
  { session := Session.init sampleConfig, status_message := "Session Active" }

/-- A parser instance for which no argument is a valid float. -/
def noFloat : String → Option ℚ := fun _ => none

/-- A trivial float formatter (never reached in the claims below). -/
def emptyRepr : ℚ → String := fun _ => ""

/-- Claim C1, counterexample: on an empty history `stats()` returns
`breakeven_wr = 0.0`, not `100 / (1 + payout_percent/100)` (which is
`500/9` for the default payout of 80%), refuting the claim as stated. -/
theorem stats_empty_breakeven_counterexample :
    (Session.init sampleConfig).stats.breakeven_wr = 0 ∧
    (Session.init sampleConfig).stats.breakeven_wr
      ≠ 100 / (1 + (Session.init sampleConfig).payout_percent / 100) := by
  constructor
  · simp [Session.stats, Session.init, sampleConfig]
  · simp [Session.stats, Session.init, sampleConfig]
    norm_num

/-- Claim C1 (amended): on an empty history every field of `stats()` is
zero, `breakeven_wr` included; the formula
`breakeven_wr = 100 / (1 + payout_percent/100)` holds only when the
history is non-empty. -/
theorem stats_empty_all_zero (s : Session) :
    (s.trades = [] →
      s.stats = { total_trades := 0, wins := 0, losses := 0, pushes := 0
                  win_rate := 0, total_pl := 0, roi_percent := 0, expectancy := 0
                  avg_win := 0, avg_loss := 0, max_drawdown_percent := 0
                  current_streak := 0, breakeven_wr := 0 }) ∧
    (s.trades ≠ [] →
      s.stats.breakeven_wr = 100 / (1 + s.payout_percent / 100)) := by
  constructor
  · intro h
    simp [Session.stats, h]
  · intro h
    simp [Session.stats, h]

/-- Witness for `stats_empty_all_zero` at the fresh default session. -/
theorem stats_empty_all_zero_witness :
    (Session.init sampleConfig).trades = [] ∧
    (Session.init sampleConfig).stats
      = { total_trades := 0, wins := 0, losses := 0, pushes := 0
          win_rate := 0, total_pl := 0, roi_percent := 0, expectancy := 0
          avg_win := 0, avg_loss := 0, max_drawdown_percent := 0
          current_streak := 0, breakeven_wr := 0 } :=
  ⟨rfl, (stats_empty_all_zero (Session.init sampleConfig)).1 rfl⟩

/-- Claim C4, counterexample: a provided risk override of `0.0` is falsy
in Python, so `record` uses `current_risk_amount()` (here 100), not the
provided override. -/
theorem risk_override_zero_counterexample :
    (((Session.init sampleConfig).add_trade .LOSS "CALL" (some 0)).2).risk_amount = 100 ∧
    (((Session.init sampleConfig).add_trade .LOSS "CALL" (some 0)).2).risk_amount ≠ 0 := by
  have h : (((Session.init sampleConfig).add_trade .LOSS "CALL" (some 0)).2).risk_amount
      = 2000 * (5 / 100) := by
    simp [Session.add_trade, Session.resolve_risk, Session.current_risk_amount,
      Session.init, sampleConfig]
  rw [h]
  norm_num

/-- Claim C4 (amended): the risk used by `record` equals the override
when one is provided and nonzero; with no override, or with an override
of exactly `0`, it equals `current_risk_amount()`, which is
`current_balance * (risk_percent / 100)` and has no side effect (it is a
pure function of the state in this embedding). -/
theorem risk_resolution_amended (s : Session) (r : TradeResult) (ty : String) (c : ℚ) :
    (c ≠ 0 → (((s.add_trade r ty (some c)).2)).risk_amount = c) ∧
    (((s.add_trade r ty none).2)).risk_amount = s.current_risk_amount ∧
    (((s.add_trade r ty (some 0)).2)).risk_amount = s.current_risk_amount ∧
    s.current_risk_amount = s.current_balance * (s.risk_percent / 100) := by
  refine ⟨fun hc => ?_, ?_, ?_, rfl⟩
  · simp [Session.add_trade, Session.resolve_risk, hc]
  · simp [Session.add_trade, Session.resolve_risk]
  · simp [Session.add_trade, Session.resolve_risk]

/-- Witness for `risk_resolution_amended`: a nonzero override of 50 is
used verbatim. -/
theorem risk_resolution_amended_witness :
    (50 : ℚ) ≠ 0 ∧
    (((Session.init sampleConfig).add_trade .WIN "CALL" (some 50)).2).risk_amount = 50 :=
  ⟨by decide,
   (risk_resolution_amended (Session.init sampleConfig) .WIN "CALL" 50).1 (by decide)⟩

/-- `add_trade` appends exactly the created trade to the history. -/
theorem add_trade_trades_eq (s : Session) (r : TradeResult) (ty : String) (cr : Option ℚ) :
    ((s.add_trade r ty cr).1).trades = s.trades ++ [(s.add_trade r ty cr).2] := rfl

/-- `add_trade` never changes `initial_balance`. -/
theorem add_trade_initial_eq (s : Session) (r : TradeResult) (ty : String) (cr : Option ℚ) :
    ((s.add_trade r ty cr).1).initial_balance = s.initial_balance := rfl

/-- Claim C7: `undo()` on an empty history returns the failure signal
with the state untouched; on `trades = ts ++ [t]` it returns success,
the history shrinks to `ts`, and the balance becomes the `balance_after`
of the new last trade (or `initial_balance` when `ts = []`). -/
theorem undo_empty_and_nonempty_spec (s : Session) :
    (s.trades = [] → s.undo_last_trade = (false, s)) ∧
    (∀ (ts : List Trade) (t : Trade), s.trades = ts ++ [t] →
      (s.undo_last_trade).1 = true ∧
      (s.undo_last_trade).2.trades = ts ∧
      (s.undo_last_trade).2.current_balance =
        (match ts.getLast? with
         | some u => u.balance_after
         | none => s.initial_balance)) := by
  constructor
  · intro h
    simp [Session.undo_last_trade, h]
  · intro ts t h
    have hne : s.trades ≠ [] := by simp [h]
    simp only [Session.undo_last_trade, if_neg hne, Session.recalculate_streaks]
    refine ⟨by trivial, ?_, ?_⟩
    · simp [h, List.dropLast_concat]
    · simp [h, List.dropLast_concat]

/-- Witness for `undo_empty_and_nonempty_spec`: one recorded LOSS with
override risk 100, then undo. -/
theorem undo_empty_and_nonempty_spec_witness :
    ((((Session.init sampleConfig).add_trade .LOSS "CALL" (some 100)).1).trades
        = [] ++ [((Session.init sampleConfig).add_trade .LOSS "CALL" (some 100)).2]) ∧
    (((((Session.init sampleConfig).add_trade .LOSS "CALL" (some 100)).1).undo_last_trade).1
        = true ∧
     ((((Session.init sampleConfig).add_trade .LOSS "CALL" (some 100)).1).undo_last_trade).2.trades
        = [] ∧
     ((((Session.init sampleConfig).add_trade .LOSS "CALL" (some 100)).1).undo_last_trade).2.current_balance
        = (match ([] : List Trade).getLast? with
           | some u => u.balance_after
           | none => (((Session.init sampleConfig).add_trade .LOSS "CALL" (some 100)).1).initial_balance)) :=
  ⟨rfl,
   (undo_empty_and_nonempty_spec
      (((Session.init sampleConfig).add_trade .LOSS "CALL" (some 100)).1)).2
     [] (((Session.init sampleConfig).add_trade .LOSS "CALL" (some 100)).2) rfl⟩

/-- The backward scan keeps at most one streak counter nonzero when
started that way. -/
theorem streakScanAux_mutex (ts : List Trade) : ∀ (w l : ℕ), w = 0 ∨ l = 0 →
    ((streakScanAux ts w l).1 = 0 ∨ (streakScanAux ts w l).2 = 0) := by
  induction ts with
  | nil => intro w l h; exact h
  | cons t rest ih =>
    intro w l h
    obtain ⟨ty, ra, res, po, ba⟩ := t
    cases res
    · by_cases hl : 0 < l
      · simpa [streakScanAux, hl] using h
      · have hl0 : l = 0 := by omega
        subst hl0
        simpa [streakScanAux] using ih (w + 1) 0 (Or.inr rfl)
    · by_cases hw : 0 < w
      · simpa [streakScanAux, hw] using h
      · have hw0 : w = 0 := by omega
        subst hw0
        simpa [streakScanAux] using ih 0 (l + 1) (Or.inl rfl)
    · simpa [streakScanAux] using h

/-- Claim C8: in every state reachable from a fresh session by
`record` / `undo` / `reset`, at most one of the two streak counters is
nonzero. -/
theorem streak_mutual_exclusion (s : Session) (hs : Reachable s) :
    s.consecutive_wins = 0 ∨ s.consecutive_losses = 0 := by
  induction hs with
  | init cfg => exact Or.inl rfl
  | record s r ty cr _ ih =>
    cases r
    · exact Or.inr rfl
    · exact Or.inl rfl
    · simpa [Session.add_trade] using ih
  | undo s _ ih =>
    by_cases h : s.trades = []
    · simpa [Session.undo_last_trade, h] using ih
    · simp only [Session.undo_last_trade, if_neg h, Session.recalculate_streaks]
      exact streakScanAux_mutex _ 0 0 (Or.inl rfl)
  | reset s _ _ => exact Or.inl rfl

/-- Witness for `streak_mutual_exclusion` at a reachable state with one
recorded WIN. -/
theorem streak_mutual_exclusion_witness :
    (((Session.init sampleConfig).add_trade .WIN "CALL" (some 100)).1).consecutive_wins = 0 ∨
    (((Session.init sampleConfig).add_trade .WIN "CALL" (some 100)).1).consecutive_losses = 0 :=
  streak_mutual_exclusion _
    (Reachable.record (Session.init sampleConfig) .WIN "CALL" (some 100)
      (Reachable.init sampleConfig))

/-- Claim C5: `should_stop()` (a pure function of the state in this
embedding) returns the drawdown stop exactly when
`drawdown_percent ≥ stop_loss_percent`; otherwise the consecutive-loss
stop exactly when `consecutive_losses ≥ max_consecutive_losses`;
otherwise `(False, "")`.  The drawdown check comes first, so the first
equivalence needs no side condition: whenever both conditions hold the
reported reason is the drawdown one. -/
theorem should_stop_characterization (s : Session) :
    (s.should_stop = (true, StopMsg.stopLoss s.drawdown_percent) ↔
        s.stop_loss_percent ≤ s.drawdown_percent) ∧
    (s.should_stop = (true, StopMsg.maxConsecLosses s.consecutive_losses) ↔
        (s.drawdown_percent < s.stop_loss_percent ∧
         s.max_consecutive_losses ≤ s.consecutive_losses)) ∧
    (s.should_stop = (false, StopMsg.empty) ↔
        (s.drawdown_percent < s.stop_loss_percent ∧
         s.consecutive_losses < s.max_consecutive_losses)) := by
  have e : s.should_stop
      = if s.stop_loss_percent ≤ s.drawdown_percent then
          (true, StopMsg.stopLoss s.drawdown_percent)
        else if s.max_consecutive_losses ≤ s.consecutive_losses then
          (true, StopMsg.maxConsecLosses s.consecutive_losses)
        else (false, StopMsg.empty) := rfl
  rw [e]
  split_ifs with h1 h2
  · refine ⟨⟨fun _ => h1, fun _ => rfl⟩, ⟨fun he => ?_, fun hc => ?_⟩,
      ⟨fun he => ?_, fun hc => ?_⟩⟩
    · exact absurd he (by simp)
    · exact absurd h1 (not_le.mpr hc.1)
    · exact absurd he (by simp)
    · exact absurd h1 (not_le.mpr hc.1)
  · refine ⟨⟨fun he => ?_, fun hc => ?_⟩, ⟨fun _ => ⟨not_le.mp h1, h2⟩, fun _ => rfl⟩,
      ⟨fun he => ?_, fun hc => ?_⟩⟩
    · exact absurd he (by simp)
    · exact absurd hc h1
    · exact absurd he (by simp)
    · exact absurd h2 (not_le.mpr hc.2)
  · refine ⟨⟨fun he => ?_, fun hc => ?_⟩, ⟨fun he => ?_, fun hc => ?_⟩,
      ⟨fun _ => ⟨not_le.mp h1, not_le.mp h2⟩, fun _ => rfl⟩⟩
    · exact absurd he (by simp)
    · exact absurd hc h1
    · exact absurd he (by simp)
    · exact absurd hc.2 h2

/-- One `add_trade` call moves the balance by exactly the created
trade's `profit_loss`. -/
theorem add_trade_balance_step (s : Session) (r : TradeResult) (ty : String) (cr : Option ℚ) :
    ((s.add_trade r ty cr).1).current_balance
      = s.current_balance + ((s.add_trade r ty cr).2).profit_loss := by
  cases r <;> simp [Session.add_trade, Trade.profit_loss] <;> ring

/-- `runRecords` never changes `initial_balance`. -/
theorem runRecords_initial_eq (calls : List RecordCall) :
    ∀ s : Session, (s.runRecords calls).initial_balance = s.initial_balance := by
  induction calls with
  | nil => intro s; rfl
  | cons c cs ih =>
    intro s
    rw [Session.runRecords, ih, add_trade_initial_eq]

/-- The balance/profit accounting invariant is preserved by any sequence
of `add_trade` calls. -/
theorem runRecords_balance (calls : List RecordCall) :
    ∀ s : Session,
      s.current_balance = s.initial_balance + (s.trades.map Trade.profit_loss).sum →
      (s.runRecords calls).current_balance
        = (s.runRecords calls).initial_balance
          + (((s.runRecords calls).trades).map Trade.profit_loss).sum := by
  induction calls with
  | nil => intro s h; exact h
  | cons c cs ih =>
    intro s h
    rw [Session.runRecords]
    apply ih
    rw [add_trade_balance_step, add_trade_initial_eq, add_trade_trades_eq]
    rw [List.map_append, List.sum_append]
    simp [h]
    ring

/-- Claim C3: after any sequence of `record` calls from a fresh session,
`current_balance` equals `initial_balance` plus the sum of the recorded
trades' `profit_loss` values (WIN → `+payout`, LOSS → `-risk_amount`,
PUSH → `0`). -/
theorem balance_eq_initial_plus_profits (cfg : Config) (calls : List RecordCall) :
    ((Session.init cfg).runRecords calls).current_balance
      = cfg.initial_balance
        + ((((Session.init cfg).runRecords calls).trades).map Trade.profit_loss).sum := by
  have h0 : (Session.init cfg).current_balance
      = (Session.init cfg).initial_balance
        + (((Session.init cfg).trades).map Trade.profit_loss).sum := by
    simp [Session.init]
  have h := runRecords_balance calls (Session.init cfg) h0
  rwa [runRecords_initial_eq] at h

/-- Claim C6: on any session satisfying the balance/history coherence
invariant (which every reachable session does), `record(X); undo()`
restores `current_balance` and the history length to their pre-`record`
values; the two closing conjuncts exhibit concrete sessions where
`max_balance` (after an undone WIN) and `min_balance` (after an undone
LOSS) are NOT restored. -/
theorem record_undo_restores_balance :
    (∀ (s : Session) (r : TradeResult) (ty : String) (cr : Option ℚ),
      BalancedHistory s →
        ((((s.add_trade r ty cr).1).undo_last_trade).2.current_balance = s.current_balance ∧
         (((s.add_trade r ty cr).1).undo_last_trade).2.trades.length = s.trades.length)) ∧
    (((((Session.init sampleConfig).add_trade .WIN "CALL" (some 100)).1).undo_last_trade).2.max_balance
        ≠ (Session.init sampleConfig).max_balance) ∧
    (((((Session.init sampleConfig).add_trade .LOSS "CALL" (some 100)).1).undo_last_trade).2.min_balance
        ≠ (Session.init sampleConfig).min_balance) := by
  refine ⟨?_, ?_, ?_⟩
  · intro s r ty cr h
    have hne : ((s.add_trade r ty cr).1).trades ≠ [] := by
      rw [add_trade_trades_eq]; simp
    simp only [Session.undo_last_trade, if_neg hne, Session.recalculate_streaks]
    constructor
    · show (match (((s.add_trade r ty cr).1).trades.dropLast).getLast? with
        | some t => t.balance_after
        | none => ((s.add_trade r ty cr).1).initial_balance) = s.current_balance
      rw [add_trade_trades_eq, List.dropLast_concat, add_trade_initial_eq]
      exact h.symm
    · show ((s.add_trade r ty cr).1).trades.dropLast.length = s.trades.length
      rw [add_trade_trades_eq, List.dropLast_concat]
  · have hmax :
        ((((Session.init sampleConfig).add_trade .WIN "CALL" (some 100)).1).undo_last_trade).2.max_balance
          = max 2000 (2000 + 100 * (80 / 100)) := by
      simp [Session.undo_last_trade, Session.recalculate_streaks, Session.add_trade,
        Session.resolve_risk, Session.current_risk_amount, Session.init, sampleConfig]
    rw [hmax]
    show max (2000 : ℚ) (2000 + 100 * (80 / 100)) ≠ (Session.init sampleConfig).max_balance
    have : max (2000 : ℚ) (2000 + 100 * (80 / 100)) = 2080 := by norm_num
    rw [this]
    show (2080 : ℚ) ≠ 2000
    norm_num
  · have hmin :
        ((((Session.init sampleConfig).add_trade .LOSS "CALL" (some 100)).1).undo_last_trade).2.min_balance
          = min 2000 (2000 - 100) := by
      simp [Session.undo_last_trade, Session.recalculate_streaks, Session.add_trade,
        Session.resolve_risk, Session.current_risk_amount, Session.init, sampleConfig]
    rw [hmin]
    have : min (2000 : ℚ) (2000 - 100) = 1900 := by norm_num
    rw [this]
    show (1900 : ℚ) ≠ (Session.init sampleConfig).min_balance
    show (1900 : ℚ) ≠ 2000
    norm_num

/-- Witness for `record_undo_restores_balance`: the fresh default
session satisfies the invariant, and recording a WIN then undoing it
restores the balance and the history length. -/
theorem record_undo_restores_balance_witness :
    BalancedHistory (Session.init sampleConfig) ∧
    (((((Session.init sampleConfig).add_trade .WIN "CALL" (some 100)).1).undo_last_trade).2.current_balance
        = (Session.init sampleConfig).current_balance ∧
     ((((Session.init sampleConfig).add_trade .WIN "CALL" (some 100)).1).undo_last_trade).2.trades.length
        = (Session.init sampleConfig).trades.length) :=
  ⟨by decide,
   record_undo_restores_balance.1 (Session.init sampleConfig) .WIN "CALL" (some 100) (by decide)⟩

/-- Claim C9: a `risk <arg>` or `payout <arg>` command whose argument
the float parser rejects leaves the whole session (hence `risk_percent`
and `payout_percent`) unchanged, sets the status message to the
corresponding invalid-value text (which starts with "Invalid"), and
returns no quit signal, so execution continues. -/
theorem invalid_numeric_arg_recovery (pyFloat : String → Option ℚ) (pyFloatRepr : ℚ → String)
    (tui : BinOptTUI) (cmd arg : String) (rest : List String) :
    (pySplit cmd = "risk" :: arg :: rest → pyFloat arg = none →
      (BinOptTUI.handle_command pyFloat pyFloatRepr tui cmd).1 = none ∧
      (BinOptTUI.handle_command pyFloat pyFloatRepr tui cmd).2.session = tui.session ∧
      (BinOptTUI.handle_command pyFloat pyFloatRepr tui cmd).2.status_message
        = "Invalid risk value" ∧
      ("Invalid".toList.isPrefixOf
        ((BinOptTUI.handle_command pyFloat pyFloatRepr tui cmd).2.status_message).toList) = true) ∧
    (pySplit cmd = "payout" :: arg :: rest → pyFloat arg = none →
      (BinOptTUI.handle_command pyFloat pyFloatRepr tui cmd).1 = none ∧
      (BinOptTUI.handle_command pyFloat pyFloatRepr tui cmd).2.session = tui.session ∧
      (BinOptTUI.handle_command pyFloat pyFloatRepr tui cmd).2.status_message
        = "Invalid payout value" ∧
      ("Invalid".toList.isPrefixOf
        ((BinOptTUI.handle_command pyFloat pyFloatRepr tui cmd).2.status_message).toList) = true) := by
  constructor
  · intro h hp
    have e : BinOptTUI.handle_command pyFloat pyFloatRepr tui cmd
        = (none, { tui with status_message := "Invalid risk value" }) := by
      simp [BinOptTUI.handle_command, h, hp]
    refine ⟨by rw [e], by rw [e], by rw [e], ?_⟩
    rw [e]
    show "Invalid".toList.isPrefixOf "Invalid risk value".toList = true
    decide
  · intro h hp
    have e : BinOptTUI.handle_command pyFloat pyFloatRepr tui cmd
        = (none, { tui with status_message := "Invalid payout value" }) := by
      simp [BinOptTUI.handle_command, h, hp]
    refine ⟨by rw [e], by rw [e], by rw [e], ?_⟩
    rw [e]
    show "Invalid".toList.isPrefixOf "Invalid payout value".toList = true
    decide

/-- Witness for `invalid_numeric_arg_recovery`: the command
`risk abc` with a parser that rejects `"abc"`. -/
theorem invalid_numeric_arg_recovery_witness :
    (pySplit "risk abc" = "risk" :: "abc" :: [] ∧ noFloat "abc" = none) ∧
    ((BinOptTUI.handle_command noFloat emptyRepr sampleTUI "risk abc").1 = none ∧
     (BinOptTUI.handle_command noFloat emptyRepr sampleTUI "risk abc").2.session
        = sampleTUI.session ∧
     (BinOptTUI.handle_command noFloat emptyRepr sampleTUI "risk abc").2.status_message
        = "Invalid risk value" ∧
     ("Invalid".toList.isPrefixOf
        ((BinOptTUI.handle_command noFloat emptyRepr sampleTUI "risk abc").2.status_message).toList)
        = true) :=
  ⟨⟨by decide, rfl⟩,
   (invalid_numeric_arg_recovery noFloat emptyRepr sampleTUI "risk abc" "abc" []).1
     (by decide) rfl⟩

/-- Claim C10: a command whose buffer tokenises to the bare verb `risk`
or `payout` (no argument) falls past the guarded `risk`/`payout`
branches into the unknown-command arm: the session (hence both percent
settings) is untouched and the status message names the verb as an
unknown command. -/
theorem bare_risk_payout_unknown_command (pyFloat : String → Option ℚ)
    (pyFloatRepr : ℚ → String) (tui : BinOptTUI) (cmd : String) :
    (pySplit cmd = ["risk"] →
      BinOptTUI.handle_command pyFloat pyFloatRepr tui cmd
        = (none, { tui with status_message := "Unknown command: risk" })) ∧
    (pySplit cmd = ["payout"] →
      BinOptTUI.handle_command pyFloat pyFloatRepr tui cmd
        = (none, { tui with status_message := "Unknown command: payout" })) := by
  constructor
  · intro h
    simp [BinOptTUI.handle_command, h]
  · intro h
    simp [BinOptTUI.handle_command, h]

/-- Witness for `bare_risk_payout_unknown_command`: the bare buffer
`risk`. -/
theorem bare_risk_payout_unknown_command_witness :
    pySplit "risk" = ["risk"] ∧
    BinOptTUI.handle_command noFloat emptyRepr sampleTUI "risk"
      = (none, { sampleTUI with status_message := "Unknown command: risk" }) :=
  ⟨by decide,
   (bare_risk_payout_unknown_command noFloat emptyRepr sampleTUI "risk").1 (by decide)⟩

/-- Backward scan with a positive win accumulator and zero loss
accumulator on a PUSH-free list: it adds the leading WIN run and stops. -/
theorem streakScanAux_win_acc (rs : List Trade) : ∀ w : ℕ, NoPush rs →
    streakScanAux rs (w + 1) 0 = (w + 1 + leadWins rs, 0) := by
  induction rs with
  | nil => intro w _; simp [streakScanAux, leadWins]
  | cons t rest ih =>
    intro w hnp
    have hrest : NoPush rest := fun u hu => hnp u (List.mem_cons_of_mem _ hu)
    have ht := hnp t (List.mem_cons_self t rest)
    obtain ⟨ty, ra, res, po, ba⟩ := t
    cases res
    · simp only [streakScanAux]
      rw [if_neg (by omega)]
      rw [ih (w + 1) hrest]
      simp [leadWins, List.takeWhile_cons, Prod.mk.injEq]
      omega
    · simp only [streakScanAux]
      rw [if_pos (by omega)]
      simp [leadWins, List.takeWhile_cons]
    · exact absurd rfl ht

/-- Symmetric accumulator lemma for the LOSS side. -/
theorem streakScanAux_loss_acc (rs : List Trade) : ∀ l : ℕ, NoPush rs →
    streakScanAux rs 0 (l + 1) = (0, l + 1 + leadLosses rs) := by
  induction rs with
  | nil => intro l _; simp [streakScanAux, leadLosses]
  | cons t rest ih =>
    intro l hnp
    have hrest : NoPush rest := fun u hu => hnp u (List.mem_cons_of_mem _ hu)
    have ht := hnp t (List.mem_cons_self t rest)
    obtain ⟨ty, ra, res, po, ba⟩ := t
    cases res
    · simp only [streakScanAux]
      rw [if_pos (by omega)]
      simp [leadLosses, List.takeWhile_cons]
    · simp only [streakScanAux]
      rw [if_neg (by omega)]
      rw [ih (l + 1) hrest]
      simp [leadLosses, List.takeWhile_cons, Prod.mk.injEq]
      omega
    · exact absurd rfl ht

/-- On a PUSH-free most-recent-first list, the replayed streak pair is
the leading WIN run paired with the leading LOSS run (at most one of
which is nonzero). -/
theorem replayStreaksRev_lead (rs : List Trade) : NoPush rs →
    replayStreaksRev rs = (leadWins rs, leadLosses rs) := by
  induction rs with
  | nil => intro _; simp [replayStreaksRev, leadWins, leadLosses]
  | cons t rest ih =>
    intro hnp
    have hrest : NoPush rest := fun u hu => hnp u (List.mem_cons_of_mem _ hu)
    have ht := hnp t (List.mem_cons_self t rest)
    obtain ⟨ty, ra, res, po, ba⟩ := t
    cases res
    · simp only [replayStreaksRev, streakStep]
      rw [ih hrest]
      simp [leadWins, leadLosses, List.takeWhile_cons, Prod.mk.injEq]
    · simp only [replayStreaksRev, streakStep]
      rw [ih hrest]
      simp [leadWins, leadLosses, List.takeWhile_cons, Prod.mk.injEq]
    · exact absurd rfl ht

/-- On a PUSH-free history (given most-recent-first) the backward scan
of `_recalculate_streaks` computes exactly the replayed streak pair. -/
theorem streakScanAux_eq_replay (rs : List Trade) (hnp : NoPush rs) :
    streakScanAux rs 0 0 = replayStreaksRev rs := by
  rw [replayStreaksRev_lead rs hnp]
  cases rs with
  | nil => simp [streakScanAux, leadWins, leadLosses]
  | cons t rest =>
    have hrest : NoPush rest := fun u hu => hnp u (List.mem_cons_of_mem _ hu)
    have ht := hnp t (List.mem_cons_self t rest)
    obtain ⟨ty, ra, res, po, ba⟩ := t
    cases res
    · simp only [streakScanAux]
      rw [if_neg (by omega)]
      rw [streakScanAux_win_acc rest 0 hrest]
      simp [leadWins, leadLosses, List.takeWhile_cons, Prod.mk.injEq]
      omega
    · simp only [streakScanAux]
      rw [if_neg (by omega)]
      rw [streakScanAux_loss_acc rest 0 hrest]
      simp [leadWins, leadLosses, List.takeWhile_cons, Prod.mk.injEq]
      omega
    · exact absurd rfl ht

/-- The streak counters of one `add_trade` call are `streakStep` of the
previous counters. -/
theorem add_trade_streaks (s : Session) (r : TradeResult) (ty : String) (cr : Option ℚ) :
    (((s.add_trade r ty cr).1).consecutive_wins, ((s.add_trade r ty cr).1).consecutive_losses)
      = streakStep (s.consecutive_wins, s.consecutive_losses) r := by
  cases r <;> rfl

/-- Replaying a history folds `streakStep` over the outcomes
chronologically. -/
theorem replayHistory_streaks (ts : List Trade) : ∀ s : Session,
    ((s.replayHistory ts).consecutive_wins, (s.replayHistory ts).consecutive_losses)
      = ts.foldl (fun wl t => streakStep wl t.result)
          (s.consecutive_wins, s.consecutive_losses) := by
  induction ts with
  | nil => intro s; rfl
  | cons t rest ih =>
    intro s
    simp only [Session.replayHistory, List.foldl_cons]
    have h := ih ((s.add_trade t.result t.trade_type (some t.risk_amount)).1)
    simp only [Session.replayHistory] at h
    rw [h, add_trade_streaks]

/-- `replayStreaksRev` is the right fold of `streakStep` over the
most-recent-first list. -/
theorem replayStreaksRev_eq_foldr (rs : List Trade) :
    replayStreaksRev rs = rs.foldr (fun t wl => streakStep wl t.result) (0, 0) := by
  induction rs with
  | nil => rfl
  | cons t rest ih => simp [replayStreaksRev, ih]

/-- Claim C2 (amended): after an undo, when the surviving history
contains no PUSH trades, the recomputed streak counters equal those
obtained by replaying `record` from scratch (from a fresh session under
any config) over the surviving prefix.  When the surviving history does
contain a PUSH this fails, because the backward scan stops at the PUSH
while replay treats it as a no-op — see the counterexample. -/
theorem undo_streaks_replay_no_push (cfg : Config) (s : Session)
    (hne : s.trades ≠ [])
    (hnp : NoPush ((s.undo_last_trade).2.trades)) :
    ((s.undo_last_trade).2.consecutive_wins, (s.undo_last_trade).2.consecutive_losses)
      = (((Session.init cfg).replayHistory ((s.undo_last_trade).2.trades)).consecutive_wins,
         ((Session.init cfg).replayHistory ((s.undo_last_trade).2.trades)).consecutive_losses) := by
  have ht : (s.undo_last_trade).2.trades = s.trades.dropLast := by
    simp [Session.undo_last_trade, if_neg hne, Session.recalculate_streaks]
  have hw : (s.undo_last_trade).2.consecutive_wins
      = (streakScanAux (s.trades.dropLast).reverse 0 0).1 := by
    simp [Session.undo_last_trade, if_neg hne, Session.recalculate_streaks]
  have hl : (s.undo_last_trade).2.consecutive_losses
      = (streakScanAux (s.trades.dropLast).reverse 0 0).2 := by
    simp [Session.undo_last_trade, if_neg hne, Session.recalculate_streaks]
  rw [ht] at hnp ⊢
  rw [hw, hl, replayHistory_streaks]
  have hnp' : NoPush ((s.trades.dropLast).reverse) := by
    intro t htm
    exact hnp t (List.mem_reverse.mp htm)
  have hfold : (s.trades.dropLast).foldl (fun wl t => streakStep wl t.result)
        ((Session.init cfg).consecutive_wins, (Session.init cfg).consecutive_losses)
      = replayStreaksRev ((s.trades.dropLast).reverse) := by
    rw [replayStreaksRev_eq_foldr]
    exact (List.foldr_reverse _ _ _).symm
  rw [hfold, ← streakScanAux_eq_replay _ hnp']

/-- The observable state after recording WIN, PUSH, LOSS (risk override
100) from the default fresh session and undoing the LOSS: the surviving
history is [WIN, PUSH]. -/
def c2Session : Session :=
  (((Session.init sampleConfig).runRecords
    [⟨.WIN, "CALL", some 100⟩, ⟨.PUSH, "CALL", some 100⟩,
     ⟨.LOSS, "CALL", some 100⟩]).undo_last_trade).2

/-- Claim C2, counterexample: after the sequence WIN, PUSH, LOSS, undo,
the backward scan stops at the surviving trailing PUSH and reports a
zero win streak, while replaying `record` over the surviving prefix
[WIN, PUSH] reports one consecutive win — so the claimed equality fails
and streak state is not a function of surviving history alone via
replay. -/
theorem undo_streaks_replay_counterexample :
    c2Session.consecutive_wins = 0 ∧
    ((Session.init sampleConfig).replayHistory c2Session.trades).consecutive_wins = 1 ∧
    (c2Session.consecutive_wins, c2Session.consecutive_losses)
      ≠ (((Session.init sampleConfig).replayHistory c2Session.trades).consecutive_wins,
         ((Session.init sampleConfig).replayHistory c2Session.trades).consecutive_losses) := by
  refine ⟨by decide, by decide, by decide⟩

/-- The state after recording WIN then LOSS (risk override 100) from the
default fresh session: undoing leaves the PUSH-free history [WIN]. -/
def c2WitnessBase : Session :=
  (Session.init sampleConfig).runRecords
    [⟨.WIN, "CALL", some 100⟩, ⟨.LOSS, "CALL", some 100⟩]

/-- Witness for `undo_streaks_replay_no_push`: undoing the LOSS of a
WIN-LOSS session leaves the PUSH-free history [WIN], on which scan and
replay agree. -/
theorem undo_streaks_replay_no_push_witness :
    (c2WitnessBase.trades ≠ [] ∧ NoPush ((c2WitnessBase.undo_last_trade).2.trades)) ∧
    ((c2WitnessBase.undo_last_trade).2.consecutive_wins,
     (c2WitnessBase.undo_last_trade).2.consecutive_losses)
      = (((Session.init sampleConfig).replayHistory
            ((c2WitnessBase.undo_last_trade).2.trades)).consecutive_wins,
         ((Session.init sampleConfig).replayHistory
            ((c2WitnessBase.undo_last_trade).2.trades)).consecutive_losses) :=
  ⟨⟨by decide, by decide⟩,
   undo_streaks_replay_no_push sampleConfig c2WitnessBase (by decide) (by decide)⟩

/-- Every reachable session satisfies the balance/history coherence
invariant assumed by `record_undo_restores_balance`: `current_balance`
always equals the last trade's `balance_after` snapshot (or
`initial_balance` on empty history). -/
theorem reachable_balanced (s : Session) (hs : Reachable s) : BalancedHistory s := by
  induction hs with
  | init cfg => simp [BalancedHistory, Session.init]
  | record s r ty cr _ _ =>
    unfold BalancedHistory
    rw [add_trade_trades_eq, List.getLast?_concat]
    rfl
  | undo s _ ih =>
    by_cases h : s.trades = []
    · simpa [Session.undo_last_trade, h] using ih
    · unfold BalancedHistory
      simp [Session.undo_last_trade, if_neg h, Session.recalculate_streaks]
  | reset s _ _ => simp [BalancedHistory, Session.init]
